import Mathlib

/-!
Verification of the outlier-detection library.

The library operates on pandas objects; this file embeds the record
sequences as `List ℚ` (numeric columns), `List α` (categorical columns)
and `List (List ℚ)` (full numeric tables).  Float arithmetic is embedded
as exact rational arithmetic; the non-finite float values (NaN, ±inf)
that the source produces by dividing by zero are embedded explicitly by
the type `FVal` below, so that every comparison against a threshold has
the same Boolean outcome as in the source.
-/

namespace OutlierDetection

/-- Non-finite-aware value: result of a float division in the source.
`fin q` is an ordinary (finite) value, `pinf`/`ninf` are +inf/−inf and
`nan` is NaN. -/
inductive FVal where
  | fin (q : ℚ)
  | pinf
  | ninf
  | nan
deriving DecidableEq, Repr

/-- Float division `a / b` of two finite values, as the source's pandas
column divisions perform it: division by zero yields ±inf (or NaN for
`0/0`) instead of raising. -/
def fdiv (a b : ℚ) : FVal :=
  if b = 0 then (if 0 < a then .pinf else if a < 0 then .ninf else .nan)
  else .fin (a / b)

/-- Comparison `v ≥ t` as evaluated on floats: NaN compares false. -/
def FVal.geB (v : FVal) (t : ℚ) : Bool :=
  match v with
  | .fin q => decide (q ≥ t)
  | .pinf => true
  | .ninf => false
  | .nan => false

/-- Ascending sort of a numeric column (the order pandas quantile and
median use internally). -/
def sortedQ (l : List ℚ) : List ℚ :=
  l.insertionSort (· ≤ ·)

/-- Index of the lower order statistic for interpolation position `h`. -/
def qIdx (h : ℚ) : ℕ :=
  (⌊h⌋).toNat

/-- Linear interpolation between the order statistics of the sorted
column `s` at position `h`:
`s[⌊h⌋] + (h−⌊h⌋)·(s[⌊h⌋+1] − s[⌊h⌋])` (the upper neighbour defaults
to the lower one at the right end, where `h−⌊h⌋ = 0` anyway). -/
def interp (s : List ℚ) (h : ℚ) : ℚ :=
  s.getD (qIdx h) 0 +
    (h - (qIdx h : ℚ)) * (s.getD (qIdx h + 1) (s.getD (qIdx h) 0) - s.getD (qIdx h) 0)

/-- `Series.quantile(p)` with pandas' default linear interpolation
between order statistics: interpolation at position `h = p·(n−1)` over
the sorted values. -/
def quantile (l : List ℚ) (p : ℚ) : ℚ :=
  if (sortedQ l).length = 0 then 0
  else interp (sortedQ l) (p * (((sortedQ l).length : ℚ) - 1))

/-- `Series.median()` (pandas): midpoint of the sorted values, the mean
of the two middle values for even length; equals the 50% quantile. -/
def median (l : List ℚ) : ℚ :=
  quantile l (1 / 2)

/-- `Series.mean()` (pandas), used by `utils.mean`. -/
def mean (l : List ℚ) : ℚ :=
  l.sum / (l.length : ℚ)

/-- Bessel-corrected sample variance: the square of `Series.std()`
computed by `utils.std_dev`.  The source stores the (generally
irrational) standard deviation `σ = √(svar l)`; the embedding works with
its square throughout, which determines every comparison the source
makes. -/
def svar (l : List ℚ) : ℚ :=
  (l.map (fun x => (x - mean l) ^ 2)).sum / ((l.length : ℚ) - 1)

/-! ### Dataset abstraction (`base.py`) -/

/-- `Detection.__init__(data: list)`: the dataset of a single-column
detector.  `values` is the `data` column; `flags` is the `is_outlier`
column, absent (`none`) until a computation method has written it. -/
structure DState (α : Type) where
  values : List α
  flags : Option (List Bool)
deriving DecidableEq, Repr

/-- Construction from a caller-supplied list: only the `data` column
exists, no flag column. -/
def Detection_init {α : Type} (data : List α) : DState α :=
  ⟨data, none⟩

/-- `Detection.outliers`: raises `ValueError` when the flag column is
absent, otherwise returns the `data` values of the flagged rows in
original order.  The state is returned unchanged alongside the result
to record that the accessor does not mutate the dataset. -/
def outliers {α : Type} (s : DState α) : Except String (List α) × DState α :=
  match s.flags with
  | none => (.error "Die Detection wurde noch nicht gestartet!", s)
  | some fs => (.ok (((s.values.zip fs).filter (fun r => r.2)).map (fun r => r.1)), s)

/-- `Detection.without_outliers`: complement of `outliers`. -/
def without_outliers {α : Type} (s : DState α) :
    Except String (List α) × DState α :=
  match s.flags with
  | none => (.error "Die Detection wurde noch nicht gestartet!", s)
  | some fs => (.ok (((s.values.zip fs).filter (fun r => !r.2)).map (fun r => r.1)), s)

/-- `DetectionFullDataFrame.__init__`: a full numeric table, rows of
equal length, plus the optional flag column. -/
structure TState where
  rows : List (List ℚ)
  flags : Option (List Bool)
deriving DecidableEq, Repr

/-- Construction of a full-table dataset: no flag column. -/
def DetectionFullDataFrame_init (rows : List (List ℚ)) : TState :=
  ⟨rows, none⟩

/-- `DetectionFullDataFrame.outliers`: the flagged rows (a sub-table),
or `ValueError` when the flag column is absent. -/
def outliersT (s : TState) : Except String (List (List ℚ)) × TState :=
  match s.flags with
  | none => (.error "Die Detection wurde noch nicht gestartet!", s)
  | some fs => (.ok (((s.rows.zip fs).filter (fun r => r.2)).map (fun r => r.1)), s)

/-- `DetectionFullDataFrame.without_outliers`. -/
def without_outliersT (s : TState) : Except String (List (List ℚ)) × TState :=
  match s.flags with
  | none => (.error "Die Detection wurde noch nicht gestartet!", s)
  | some fs => (.ok (((s.rows.zip fs).filter (fun r => !r.2)).map (fun r => r.1)), s)

/-- The outlier partition of a computed dataset: rows paired with their
flag, filtered on the flag (`self.data[self.data[NAME_IS_OUTLIER]]`). -/
def outlierRows {ρ : Type} (l : List (ρ × Bool)) : List (ρ × Bool) :=
  l.filter (fun r => r.2)

/-- The complement partition (`self.data[~self.data[NAME_IS_OUTLIER]]`). -/
def nonOutlierRows {ρ : Type} (l : List (ρ × Bool)) : List (ρ × Bool) :=
  l.filter (fun r => !r.2)

/-! ### Z-score (`z_score.py`) -/

/-- The `z-score` column, squared: the source stores
`z = (x − mean) / std`; `std = √(svar)` is irrational in general, so the
embedding stores `z² = (x − mean)² / svar` (an `FVal`: `svar = 0` gives
NaN for `x = mean` and +inf otherwise, and a single-element list gives
`svar = 0/0`, embedded as `0`, hence NaN as in the source). -/
def z_sq_col (l : List ℚ) : List FVal :=
  l.map (fun x => fdiv ((x - mean l) ^ 2) (svar l))

/-- `Z_SCORE.z_score` flag of one record: the source flags
`z ≥ t ∨ z ≤ −t`.  For finite `z` this is `|z| ≥ t`, i.e. always true
for `t ≤ 0` and `z² ≥ t²` for `t > 0`; NaN compares false both times. -/
def z_score_flag (l : List ℚ) (t : ℚ) (x : ℚ) : Bool :=
  match fdiv ((x - mean l) ^ 2) (svar l) with
  | .fin q => if t ≤ 0 then true else decide (q ≥ t ^ 2)
  | .pinf => true
  | .ninf => false
  | .nan => false

/-- State of a `Z_SCORE` detector: the columns `mean`, `std_dev` and
`z-score` written by `z_score()` (the latter two stored squared, see
`z_sq_col`), plus the flag column. -/
structure ZState where
  values : List ℚ
  meanCol : Option (List ℚ)
  stdCol : Option (List ℚ)
  zCol : Option (List FVal)
  flags : Option (List Bool)
deriving DecidableEq, Repr

/-- `Z_SCORE.z_score()`: writes the derived columns and the flag column,
all recomputed from the `data` column alone. -/
def z_score_run (t : ℚ) (s : ZState) : ZState :=
  { values := s.values
    meanCol := some (s.values.map (fun _ => mean s.values))
    stdCol := some (s.values.map (fun _ => svar s.values))
    zCol := some (z_sq_col s.values)
    flags := some (s.values.map (z_score_flag s.values t)) }

/-! ### IQR (`iqr.py`) and IDR (`idr.py`) -/

/-- `IQR.iqr`: `self.iqr_lower_limit = q1 - threshold * (q3 - q1)` with
`q1/q3` the 25%/75% quantiles. -/
def iqr_lower_limit (l : List ℚ) (t : ℚ) : ℚ :=
  quantile l (1 / 4) - t * (quantile l (3 / 4) - quantile l (1 / 4))

/-- `IQR.iqr`: `self.iqr_upper_limit = q3 + threshold * (q3 - q1)`. -/
def iqr_upper_limit (l : List ℚ) (t : ℚ) : ℚ :=
  quantile l (3 / 4) + t * (quantile l (3 / 4) - quantile l (1 / 4))

/-- `IQR.iqr` flag of one record:
`(x >= iqr_upper_limit) | (x <= iqr_lower_limit)`. -/
def iqr_flag (l : List ℚ) (t : ℚ) (x : ℚ) : Bool :=
  decide (x ≥ iqr_upper_limit l t) || decide (x ≤ iqr_lower_limit l t)

/-- State of an `IQR` (resp. `IDR`) detector: the two limit attributes
plus the flag column. -/
structure QState where
  values : List ℚ
  lowerLimit : Option ℚ
  upperLimit : Option ℚ
  flags : Option (List Bool)
deriving DecidableEq, Repr

/-- `IQR.iqr()`. -/
def iqr_run (t : ℚ) (s : QState) : QState :=
  { values := s.values
    lowerLimit := some (iqr_lower_limit s.values t)
    upperLimit := some (iqr_upper_limit s.values t)
    flags := some (s.values.map (iqr_flag s.values t)) }

/-- `IDR.idr`: the variables named `q1`/`q3` in the source hold the
10%/90% quantiles (the deciles D1/D9);
`self.iqr_lower_limit = q1 - threshold * idr` with `idr = q3 - q1`. -/
def idr_lower_limit (l : List ℚ) (t : ℚ) : ℚ :=
  quantile l (1 / 10) - t * (quantile l (9 / 10) - quantile l (1 / 10))

/-- `IDR.idr`: `self.iqr_upper_limit = q3 + threshold * idr`. -/
def idr_upper_limit (l : List ℚ) (t : ℚ) : ℚ :=
  quantile l (9 / 10) + t * (quantile l (9 / 10) - quantile l (1 / 10))

/-- `IDR.idr` flag of one record:
`(x >= iqr_upper_limit) | (x <= iqr_lower_limit)`. -/
def idr_flag (l : List ℚ) (t : ℚ) (x : ℚ) : Bool :=
  decide (x ≥ idr_upper_limit l t) || decide (x ≤ idr_lower_limit l t)

/-- `IDR.idr()`. -/
def idr_run (t : ℚ) (s : QState) : QState :=
  { values := s.values
    lowerLimit := some (idr_lower_limit s.values t)
    upperLimit := some (idr_upper_limit s.values t)
    flags := some (s.values.map (idr_flag s.values t)) }

/-- `IDR.__init__` default threshold. -/
def idr_default_threshold : ℚ := 1

/-- `IQR.__init__` default threshold. -/
def iqr_default_threshold : ℚ := 11 / 5

/-! ### MAD (`mad.py`) -/

/-- The `mad` column written by `MAD.mad()`:
`abs_diff / median_abs_diff`, a float division (`FVal`): when the median
absolute deviation is zero the score is NaN for records at the median
and +inf otherwise. -/
def mad_score_col (l : List ℚ) : List FVal :=
  let m := median l
  let ad := l.map (fun y => |y - m|)
  ad.map (fun d => fdiv d (median ad))

/-- `MAD.mad` flag of one record: `mad >= threshold`, NaN false. -/
def mad_flag (l : List ℚ) (t : ℚ) (x : ℚ) : Bool :=
  (fdiv (|x - median l|) (median (l.map (fun y => |y - median l|)))).geB t

/-- State of a `MAD` detector: the columns `median`, `abs_diff`,
`median_abs_diff` and `mad` plus the flag column. -/
structure MState where
  values : List ℚ
  medianCol : Option (List ℚ)
  absDiffCol : Option (List ℚ)
  medianAbsDiffCol : Option (List ℚ)
  madCol : Option (List FVal)
  flags : Option (List Bool)
deriving DecidableEq, Repr

/-- `MAD.mad()`. -/
def mad_run (t : ℚ) (s : MState) : MState :=
  { values := s.values
    medianCol := some (s.values.map (fun _ => median s.values))
    absDiffCol := some (s.values.map (fun y => |y - median s.values|))
    medianAbsDiffCol :=
      some (s.values.map (fun _ => median (s.values.map (fun y => |y - median s.values|))))
    madCol := some (mad_score_col s.values)
    flags := some (s.values.map (mad_flag s.values t)) }

/-! ### Histogram binning (`histogram.py`)

The module body calls `pd.cut`, but `import pandas as pd` appears only
inside the `if __name__ == "__main__"` block, so `Histogram.histogram()`
raises `NameError` whenever the class is used as a library.  The
definitions below embed the body as it executes with pandas available
(the algorithm the class docstring documents). -/

/-- Minimum of a numeric column (`x.min()` inside `pd.cut`). -/
def listMin (l : List ℚ) : ℚ :=
  match l with
  | [] => 0
  | x :: xs => xs.foldl min x

/-- Maximum of a numeric column (`x.max()` inside `pd.cut`). -/
def listMax (l : List ℚ) : ℚ :=
  match l with
  | [] => 0
  | x :: xs => xs.foldl max x

/-- The bin edges `pd.cut(x, bins=b)` uses: `b+1` equally spaced edges
from min to max; for a non-degenerate range the leftmost edge is
shifted down by 0.1% of the range so the minimum is included, and for
`min = max` both ends are moved out by 0.1% of their magnitude (or by
0.001 for zero). -/
def cutEdges (l : List ℚ) (bins : ℕ) : List ℚ :=
  let mn := listMin l
  let mx := listMax l
  if mn = mx then
    let mn' := if mn = 0 then -(1 / 1000) else mn - (1 / 1000) * |mn|
    let mx' := if mx = 0 then (1 / 1000) else mx + (1 / 1000) * |mx|
    (List.range (bins + 1)).map (fun i => mn' + i * (mx' - mn') / bins)
  else
    (List.range (bins + 1)).map (fun i =>
      if i = 0 then mn - (mx - mn) * (1 / 1000)
      else mn + i * (mx - mn) / bins)

/-- The bin a record falls into: `pd.cut` uses right-closed intervals
`(e_i, e_{i+1}]`, so the bin index is the least `i` with
`x ≤ e_{i+1}`. -/
def binIndex (l : List ℚ) (bins : ℕ) (x : ℚ) : ℕ :=
  ((List.range bins).find?
    (fun i => decide (x ≤ (cutEdges l bins).getD (i + 1) 0))).getD bins

/-- The rare bins: `value_counts()` of the cut column lists every bin
(empty ones with count 0) and a bin goes into `rare_ranges` when its
count is below the configured number of bins. -/
def rareBins (l : List ℚ) (bins : ℕ) : List ℕ :=
  (List.range bins).filter
    (fun i => l.countP (fun y => binIndex l bins y = i) < bins)

/-- `Histogram.histogram()` flags: a record is an outlier iff its bin is
in `rare_ranges`. -/
def histogram_flags (l : List ℚ) (bins : ℕ) : List (ℚ × Bool) :=
  l.map (fun x => (x, decide (binIndex l bins x ∈ rareBins l bins)))

/-! ### KNN (`knn.py`) -/

/-- The `knn` column of one record: `BallTree.query(X, k=self.k+1)`
returns the distances to the `k+1` nearest neighbours of `x` (the
nearest being `x` itself at distance 0) in ascending order, and the
source takes their maximum — i.e. entry `k` (0-based) of the sorted
list of distances `|x − y|` over all records `y`. -/
def knn_dist (l : List ℚ) (k : ℕ) (x : ℚ) : ℚ :=
  ((l.map (fun y => |x - y|)).insertionSort (· ≤ ·)).getD k 0

/-- `KNN.knn` flag of one record: `knn > threshold` (strict). -/
def knn_flag (l : List ℚ) (k : ℕ) (t : ℚ) (x : ℚ) : Bool :=
  decide (knn_dist l k x > t)

/-- State of a `KNN` detector: the `knn` distance column plus flags. -/
structure KState where
  values : List ℚ
  knnCol : Option (List ℚ)
  flags : Option (List Bool)
deriving DecidableEq, Repr

/-- `KNN.knn()`: `tree.query(X, k=self.k+1)` raises `ValueError` when
`k+1` exceeds the number of records (and `BallTree(X)` itself raises on
an empty input), so computation succeeds iff `n ≥ k+1`; on failure no
column is written. -/
def knn_run (k : ℕ) (t : ℚ) (s : KState) : Option KState :=
  if s.values.length < k + 1 then none
  else
    some { values := s.values
           knnCol := some (s.values.map (knn_dist s.values k))
           flags := some (s.values.map (knn_flag s.values k t)) }

/-- `KNN.__init__` default neighbour count. -/
def knn_default_k : ℕ := 25

/-! ### Categorical cumulative mass (`one_dimension_categorial.py`) -/

/-- Running cumulative fractions: `np.cumsum(vc.values) / len(pdf)`
attached to the categories of `vc`. -/
def cumFracs {α : Type} (n : ℕ) : List (α × ℕ) → ℕ → List (α × ℚ)
  | [], _ => []
  | (v, c) :: rest, acc => (v, ((acc + c : ℕ) : ℚ) / (n : ℚ)) :: cumFracs n rest (acc + c)

/-- The `cumm_frac` table of `OneDimCategorial.cum_sum`: one row per
distinct category with its cumulative fraction, categories in ascending
count order (`value_counts().sort_values()`).  Ties between equal
counts are in unspecified order in the source (spec §9); the embedding
fixes one stable order. -/
def cumSumTable {α : Type} [DecidableEq α] (data : List α) : List (α × ℚ) :=
  cumFracs data.length
    ((data.dedup.map (fun v => (v, data.count v))).insertionSort
      (fun a b => a.2 ≤ b.2)) 0

/-- First matching table row for a key — the unique row a pandas
`merge` on a unique-keyed right table joins to each left row. -/
def tableLookup {α β : Type} [DecidableEq α] (table : List (α × β)) (v : α) :
    Option β :=
  (table.find? (fun e => decide (e.1 = v))).map (fun e => e.2)

/-- State of a `OneDimCategorial` detector: the `data` column, the
`cum_sum` column (present after a run) and the flag column. -/
structure CState (α : Type) where
  rows : List α
  cum : Option (List ℚ)
  flags : Option (List Bool)
deriving DecidableEq, Repr

/-- Fresh `OneDimCategorial` dataset. -/
def cumInit {α : Type} (data : List α) : CState α :=
  ⟨data, none, none⟩

/-- `OneDimCategorial.cum_sum()`: rebuilds `self.data` as
`pdf.merge(cumm_frac, on=NAME_DATA, how="inner")` (each record joined
in left order to its category's unique table row) and writes the flag
column `cum_sum < threshold`.  When the frame already holds a
`cum_sum` column (i.e. on a second invocation) the merge suffixes the
two copies to `cum_sum_x`/`cum_sum_y` and the subsequent
`pdf[NAME_CUM_SUM]` lookup raises `KeyError`. -/
def cum_sum_step {α : Type} [DecidableEq α] (t : ℚ) (s : CState α) :
    Except String (CState α) :=
  if s.cum.isSome then .error "KeyError: cum_sum"
  else
    let merged := s.rows.filterMap
      (fun v => (tableLookup (cumSumTable s.rows) v).map (fun c => (v, c)))
    .ok { rows := merged.map (fun r => r.1)
          cum := some (merged.map (fun r => r.2))
          flags := some (merged.map (fun r => decide (r.2 < t))) }

/-! ### Categorical pair (`categorial_x_categorial.py`) -/

section CategoricalPair

variable {α β : Type} [DecidableEq α] [DecidableEq β]

/-- The column categories (`df[NAME_DATA].unique()`) — the columns of
the helper matrices. -/
def colCats (data : List (α × β)) : List α :=
  (data.map (fun r => r.1)).dedup

/-- The row categories (`df[NAME_OTHER].unique()`) — the index of the
helper matrices. -/
def rowCats (data : List (α × β)) : List β :=
  (data.map (fun r => r.2)).dedup

/-- `value_counts([NAME_DATA, NAME_OTHER])` of one combination: the
number of records equal to `(a, b)`. -/
def pcount (data : List (α × β)) (a : α) (b : β) : ℕ :=
  data.countP (fun r => decide (r.1 = a) && decide (r.2 = b))

/-- One cell of `data_count` (`_build_data_count`): both key columns
are categorical (`astype("category")` in `__init__`), so
`DataFrame.value_counts` — a `groupby` over the two columns with
`observed=False` — lists every combination of the observed categories,
the absent ones with count 0, and the loop over `vc.index` writes
every cell of the matrix. -/
def cellCount (data : List (α × β)) (a : α) (b : β) : ℕ :=
  pcount data a b

/-- All cells of the helper matrices (every column/row category
combination). -/
def allCells (data : List (α × β)) : List (α × β) :=
  (colCats data).product (rowCats data)

/-- `df.values.sum()` in `_build_data_prob`: every cell of `data_count`
is numerically filled, so this is the plain sum of all cells (which
equals the record count, see `totalN_eq_length`). -/
def totalN (data : List (α × β)) : ℕ :=
  ((allCells data).map (fun c => pcount data c.1 c.2)).sum

/-- `df.loc[row].sum()`: the row sum of `data_count`, i.e. the number
of records in that row category. -/
def rowSum (data : List (α × β)) (b : β) : ℕ :=
  data.countP (fun r => decide (r.2 = b))

/-- `df[col].sum()`: likewise the number of records in that column
category. -/
def colSum (data : List (α × β)) (a : α) : ℕ :=
  data.countP (fun r => decide (r.1 = a))

/-- One cell of `data_prob` (`_build_data_prob`):
`(rowsum/count)·(colsum/count)·count`, written for every combination
in `vc.index` — i.e. for every cell of the matrix. -/
def cellProb (data : List (α × β)) (a : α) (b : β) : ℚ :=
  ((rowSum data b : ℚ) / (totalN data : ℚ)) *
    ((colSum data a : ℚ) / (totalN data : ℚ)) * (totalN data : ℚ)

/-- One cell of `data_expect` (`_build_data_expect`):
`data_count / data_prob`, elementwise. -/
def cellExpect (data : List (α × β)) (a : α) (b : β) : ℚ :=
  (cellCount data a b : ℚ) / cellProb data a b

/-- `marginal_probabilities` flag of a combination:
`(count < threshold_count) & (probability < threshold_expectation)`. -/
def cxc_flag (data : List (α × β)) (tc : ℕ) (te : ℚ) (a : α) (b : β) : Bool :=
  decide (cellCount data a b < tc) && decide (cellExpect data a b < te)

/-- The melted and de-duplicated per-combination table the final merge
joins each record to: one row per cell carrying the cell's count,
deviation factor and flag. -/
def cxcTable (data : List (α × β)) (tc : ℕ) (te : ℚ) :
    List ((α × β) × (ℕ × ℚ × Bool)) :=
  (allCells data).map (fun c =>
    (c, (cellCount data c.1 c.2, cellExpect data c.1 c.2, cxc_flag data tc te c.1 c.2)))

/-- State of a `CategorialXCategorial` detector: the record pairs, the
`count` and `probability` columns and the flag column. -/
structure PState (α β : Type) where
  rows : List (α × β)
  cnt : Option (List ℕ)
  prob : Option (List ℚ)
  flags : Option (List Bool)
deriving DecidableEq, Repr

/-- Fresh `CategorialXCategorial` dataset. -/
def pairInit (data : List (α × β)) : PState α β :=
  ⟨data, none, none, none⟩

/-- `CategorialXCategorial.marginal_probabilities()`: builds the helper
matrices, melts them, annotates each record by an inner merge on the
two category columns (the annotation table has unique keys after
`drop_duplicates`, so the merge keeps each record once, in left
order), and rebuilds `self.data` with the merged columns.  When the
frame already holds a `count` column (a second invocation) the merge
suffixes the two copies to `count_x`/`count_y` and the subsequent
`pdf[NAME_COUNT]` lookup raises `KeyError`. -/
def marginal_probabilities_step (tc : ℕ) (te : ℚ) (s : PState α β) :
    Except String (PState α β) :=
  if s.cnt.isSome then .error "KeyError: count"
  else
    let merged := s.rows.filterMap
      (fun r => (tableLookup (cxcTable s.rows tc te) r).map (fun ann => (r, ann)))
    .ok { rows := merged.map (fun r => r.1)
          cnt := some (merged.map (fun r => r.2.1))
          prob := some (merged.map (fun r => r.2.2.1))
          flags := some (merged.map (fun r => r.2.2.2)) }

/-- Modelled from the spec: `expected[r][c] = rowSum(r)·colSum(c)/N`
with `N` the record count, absent combinations counting 0. -/
def cxc_spec_expected (data : List (α × β)) (a : α) (b : β) : ℚ :=
  ((rowSum data b : ℚ) * (colSum data a : ℚ)) / (data.length : ℚ)

/-- Modelled from the spec: a combination is an outlier combination iff
`count < threshold_count` and `count/expected < threshold_expectation`
(conjunction). -/
def cxc_spec_flag (data : List (α × β)) (tc : ℕ) (te : ℚ) (a : α) (b : β) : Bool :=
  decide (pcount data a b < tc) &&
    decide ((pcount data a b : ℚ) / cxc_spec_expected data a b < te)

end CategoricalPair

/-! ### Multivariate row aggregation (`numerical_x_numerical.py`) -/

/-- `mad_scores.replace({np.nan: 0.0, np.inf: 1.0, -np.inf: 0.0})`. -/
def sanitize (v : FVal) : ℚ :=
  match v with
  | .fin q => q
  | .pinf => 1
  | .ninf => 0
  | .nan => 0

/-- `MinMaxScaler().fit_transform` on one column (feature range
`[0,1]`): `(x − min)/(max − min)`, with a zero range replaced by 1 — a
constant column maps to all zeros. -/
def minmaxCol (col : List ℚ) : List ℚ :=
  let mn := listMin col
  let mx := listMax col
  col.map (fun x => (x - mn) / (if mx - mn = 0 then 1 else mx - mn))

/-- `mad_scores.sum(axis=1)` at one record index. -/
def rowSumAt (cols : List (List ℚ)) (i : ℕ) : ℚ :=
  (cols.map (fun c => c.getD i 0)).sum

/-- `NumericalFullDataFrame.mad_sum()` on the table's columns: per
column the univariate MAD score column, then the NaN/±inf replacement,
then min-max scaling per column, then the per-record row sum, flagged
when strictly above the threshold. -/
def mad_sum_flags (cols : List (List ℚ)) (t : ℚ) : List Bool :=
  let scores := cols.map (fun c => mad_score_col c)
  let sane := scores.map (fun c => c.map sanitize)
  let normed := sane.map minmaxCol
  (List.range (cols.headD []).length).map (fun i => decide (rowSumAt normed i > t))

/-- Modelled from the spec's wording of §4.11: per record, sum over the
columns of the min-max-normalized sanitized MAD scores and compare
strictly against the threshold. -/
def mad_sum_spec_flags (cols : List (List ℚ)) (t : ℚ) : List Bool :=
  (List.range (cols.headD []).length).map (fun i =>
    decide ((cols.map
      (fun c => (minmaxCol ((mad_score_col c).map sanitize)).getD i 0)).sum > t))

/-- `NumericalFullDataFrame.__init__` default threshold. -/
def mad_sum_default_threshold : ℚ := 8

/-! ### Spec-side reference definitions and concrete test data -/

/-- Modelled from the spec's wording of §4.4 (claim C4): IDR lower bound
`Q1 − threshold·(D9−D1)` with `Q1` the 25% percentile as shift base. -/
def idr_spec_lower (l : List ℚ) (t : ℚ) : ℚ :=
  quantile l (1 / 4) - t * (quantile l (9 / 10) - quantile l (1 / 10))

/-- Modelled from the spec's wording of §4.4 (claim C4): IDR upper bound
`Q3 + threshold·(D9−D1)` with `Q3` the 75% percentile as shift base. -/
def idr_spec_upper (l : List ℚ) (t : ℚ) : ℚ :=
  quantile l (3 / 4) + t * (quantile l (9 / 10) - quantile l (1 / 10))

/-- Modelled from the spec's wording of §4.4 (claim C4): flag iff
`x ≤ lower ∨ x ≥ upper` with the Q1/Q3-shifted bounds. -/
def idr_spec_flag (l : List ℚ) (t : ℚ) (x : ℚ) : Bool :=
  decide (x ≤ idr_spec_lower l t) || decide (x ≥ idr_spec_upper l t)

/-- Concrete input separating the source's IDR bounds from the spec's:
D1 = 1.1, D9 = 9.9, Q1 = 2.75, Q3 = 8.25, span = 8.8; the source's
upper bound is 18.7, the spec's is 17.05, and 18 lies between. -/
def idrCexData : List ℚ := [0, 1, 2, 3, 4, 5, 6, 7, 8, 9, 10, 18]

/-- The categorical-pair scenario of spec §8: (X,P)×10, (X,Q)×5,
(Y,P)×1, (Y,Q)×100 with X,Y = 0,1 and P,Q = 0,1. -/
def cxcScenarioData : List (ℕ × ℕ) :=
  List.replicate 10 (0, 0) ++ List.replicate 5 (0, 1) ++ [(1, 0)] ++
    List.replicate 100 (1, 1)

/-! ### Helper lemmas -/

theorem foldl_min_le_init (l : List ℚ) (a : ℚ) : l.foldl min a ≤ a := by
  induction l generalizing a with
  | nil => simp
  | cons x xs ih => exact le_trans (ih (min a x)) (min_le_left a x)

theorem foldl_min_le_mem {l : List ℚ} {y : ℚ} (h : y ∈ l) (a : ℚ) :
    l.foldl min a ≤ y := by
  induction l generalizing a with
  | nil => cases h
  | cons x xs ih =>
    rcases List.mem_cons.mp h with rfl | hy
    · exact le_trans (foldl_min_le_init xs (min a y)) (min_le_right a y)
    · exact ih hy (min a x)

theorem init_le_foldl_max (l : List ℚ) (a : ℚ) : a ≤ l.foldl max a := by
  induction l generalizing a with
  | nil => simp
  | cons x xs ih => exact le_trans (le_max_left a x) (ih (max a x))

theorem mem_le_foldl_max {l : List ℚ} {y : ℚ} (h : y ∈ l) (a : ℚ) :
    y ≤ l.foldl max a := by
  induction l generalizing a with
  | nil => cases h
  | cons x xs ih =>
    rcases List.mem_cons.mp h with rfl | hy
    · exact le_trans (le_max_right a y) (init_le_foldl_max xs (max a y))
    · exact ih hy (max a x)

theorem listMin_le {l : List ℚ} {y : ℚ} (h : y ∈ l) : listMin l ≤ y := by
  cases l with
  | nil => cases h
  | cons x xs =>
    rcases List.mem_cons.mp h with rfl | hy
    · exact foldl_min_le_init xs y
    · exact foldl_min_le_mem hy x

theorem le_listMax {l : List ℚ} {y : ℚ} (h : y ∈ l) : y ≤ listMax l := by
  cases l with
  | nil => cases h
  | cons x xs =>
    rcases List.mem_cons.mp h with rfl | hy
    · exact init_le_foldl_max xs y
    · exact mem_le_foldl_max hy x

theorem sorted_getD_le {s : List ℚ} (hsort : s.Sorted (· ≤ ·)) {i j : ℕ}
    (d e : ℚ) (hij : i ≤ j) (hj : j < s.length) : s.getD i d ≤ s.getD j e := by
  have hi : i < s.length := lt_of_le_of_lt hij hj
  rw [List.getD_eq_getElem s d hi, List.getD_eq_getElem s e hj]
  have := hsort.rel_get_of_le (a := ⟨i, hi⟩) (b := ⟨j, hj⟩) (Fin.mk_le_mk.mpr hij)
  simpa using this

theorem qIdx_le_of_nonneg {h : ℚ} (h0 : 0 ≤ h) : (qIdx h : ℚ) ≤ h := by
  have e : (⌊h⌋.toNat : ℤ) = ⌊h⌋ := Int.toNat_of_nonneg (Int.floor_nonneg.mpr h0)
  unfold qIdx
  calc ((⌊h⌋.toNat : ℕ) : ℚ) = ((⌊h⌋ : ℤ) : ℚ) := by exact_mod_cast congrArg (fun z : ℤ => (z : ℚ)) e
  _ ≤ h := Int.floor_le h

theorem lt_qIdx_add_one {h : ℚ} (h0 : 0 ≤ h) : h < (qIdx h : ℚ) + 1 := by
  have e : (⌊h⌋.toNat : ℤ) = ⌊h⌋ := Int.toNat_of_nonneg (Int.floor_nonneg.mpr h0)
  have := Int.lt_floor_add_one h
  unfold qIdx
  have e2 : ((⌊h⌋.toNat : ℕ) : ℚ) = ((⌊h⌋ : ℤ) : ℚ) := by
    exact_mod_cast congrArg (fun z : ℤ => (z : ℚ)) e
  rw [e2]
  linarith

theorem qIdx_mono {h₁ h₂ : ℚ} (h : h₁ ≤ h₂) : qIdx h₁ ≤ qIdx h₂ :=
  Int.toNat_le_toNat (Int.floor_le_floor h)

theorem qIdx_lt_length {s : List ℚ} {h : ℚ} (hn : 1 ≤ s.length)
    (hub : h ≤ (s.length : ℚ) - 1) : qIdx h < s.length := by
  have hcast : ((s.length : ℚ) - 1) = (((s.length : ℤ) - 1 : ℤ) : ℚ) := by push_cast; ring
  have hf : ⌊h⌋ ≤ (s.length : ℤ) - 1 := by
    have := Int.floor_le_floor hub
    rwa [hcast, Int.floor_intCast] at this
  unfold qIdx
  omega

theorem getD_lo_le_hi {s : List ℚ} (hsort : s.Sorted (· ≤ ·)) {i : ℕ}
    (_ : i < s.length) : s.getD i 0 ≤ s.getD (i + 1) (s.getD i 0) := by
  by_cases hc : i + 1 < s.length
  · exact sorted_getD_le hsort 0 (s.getD i 0) (Nat.le_succ i) hc
  · rw [List.getD_eq_default _ _ (Nat.le_of_not_lt hc)]

theorem interp_mono {s : List ℚ} (hsort : s.Sorted (· ≤ ·)) {h₁ h₂ : ℚ}
    (h0 : 0 ≤ h₁) (h12 : h₁ ≤ h₂) (hub : h₂ ≤ (s.length : ℚ) - 1)
    (hn : 1 ≤ s.length) : interp s h₁ ≤ interp s h₂ := by
  have h0' : 0 ≤ h₂ := le_trans h0 h12
  have i2lt : qIdx h₂ < s.length := qIdx_lt_length hn hub
  have i1le : qIdx h₁ ≤ qIdx h₂ := qIdx_mono h12
  have i1lt : qIdx h₁ < s.length := lt_of_le_of_lt i1le i2lt
  have flo1 : (qIdx h₁ : ℚ) ≤ h₁ := qIdx_le_of_nonneg h0
  have fhi1 : h₁ < (qIdx h₁ : ℚ) + 1 := lt_qIdx_add_one h0
  have flo2 : (qIdx h₂ : ℚ) ≤ h₂ := qIdx_le_of_nonneg h0'
  have lohi1 : s.getD (qIdx h₁) 0 ≤ s.getD (qIdx h₁ + 1) (s.getD (qIdx h₁) 0) :=
    getD_lo_le_hi hsort i1lt
  have lohi2 : s.getD (qIdx h₂) 0 ≤ s.getD (qIdx h₂ + 1) (s.getD (qIdx h₂) 0) :=
    getD_lo_le_hi hsort i2lt
  rcases eq_or_lt_of_le i1le with heq | hlt
  · unfold interp
    rw [heq]
    have hmul := mul_le_mul_of_nonneg_right
      (sub_le_sub_right h12 ((qIdx h₂ : ℕ) : ℚ))
      (sub_nonneg.mpr (heq ▸ lohi1))
    linarith
  · have hstep : qIdx h₁ + 1 ≤ qIdx h₂ := hlt
    have h11lt : qIdx h₁ + 1 < s.length := lt_of_le_of_lt hstep i2lt
    have hdflt : s.getD (qIdx h₁ + 1) (s.getD (qIdx h₁) 0) = s.getD (qIdx h₁ + 1) 0 := by
      rw [List.getD_eq_getElem s _ h11lt, List.getD_eq_getElem s _ h11lt]
    have step1 : interp s h₁ ≤ s.getD (qIdx h₁ + 1) 0 := by
      unfold interp
      rw [hdflt] at lohi1 ⊢
      have hf1 : h₁ - (qIdx h₁ : ℚ) ≤ 1 := by linarith
      have := mul_le_mul_of_nonneg_right hf1 (sub_nonneg.mpr lohi1)
      linarith
    have step2 : s.getD (qIdx h₁ + 1) 0 ≤ s.getD (qIdx h₂) 0 :=
      sorted_getD_le hsort 0 0 hstep i2lt
    have step3 : s.getD (qIdx h₂) 0 ≤ interp s h₂ := by
      unfold interp
      have := mul_nonneg (sub_nonneg.mpr flo2) (sub_nonneg.mpr lohi2)
      linarith
    exact le_trans step1 (le_trans step2 step3)

theorem quantile_mono (l : List ℚ) {p q : ℚ} (hp : 0 ≤ p) (hpq : p ≤ q)
    (hq : q ≤ 1) : quantile l p ≤ quantile l q := by
  unfold quantile
  by_cases h0 : (sortedQ l).length = 0
  · simp [h0]
  · simp only [h0, if_false]
    have hn : 1 ≤ (sortedQ l).length := Nat.one_le_iff_ne_zero.mpr h0
    have hn1 : (0 : ℚ) ≤ ((sortedQ l).length : ℚ) - 1 := by
      have : (1 : ℚ) ≤ ((sortedQ l).length : ℚ) := by exact_mod_cast hn
      linarith
    exact interp_mono (List.sorted_insertionSort _ l)
      (mul_nonneg hp hn1)
      (mul_le_mul_of_nonneg_right hpq hn1)
      (by calc q * (((sortedQ l).length : ℚ) - 1)
            ≤ 1 * (((sortedQ l).length : ℚ) - 1) := mul_le_mul_of_nonneg_right hq hn1
          _ = ((sortedQ l).length : ℚ) - 1 := one_mul _)
      hn

/-! ### Merge and counting lemmas -/

theorem filterMap_lookup_fst {α β : Type} (l : List α) (f : α → Option β)
    (h : ∀ v ∈ l, (f v).isSome) :
    (l.filterMap (fun v => (f v).map (fun c => (v, c)))).map (fun r => r.1) = l := by
  induction l with
  | nil => rfl
  | cons x xs ih =>
    obtain ⟨c, hc⟩ := Option.isSome_iff_exists.mp (h x (List.mem_cons_self x xs))
    rw [List.filterMap_cons, hc]
    simpa using ih (fun v hv => h v (List.mem_cons_of_mem _ hv))

theorem filterMap_lookup_eq_map {α β : Type} (l : List α) (f : α → Option β)
    (g : α → β) (h : ∀ v ∈ l, f v = some (g v)) :
    l.filterMap (fun v => (f v).map (fun c => (v, c))) =
      l.map (fun v => (v, g v)) := by
  induction l with
  | nil => rfl
  | cons x xs ih =>
    rw [List.filterMap_cons, h x (List.mem_cons_self x xs)]
    simpa using ih (fun v hv => h v (List.mem_cons_of_mem _ hv))

theorem find_map_key {γ δ : Type} [DecidableEq γ] (g : γ → δ) (cells : List γ)
    (r : γ) (h : r ∈ cells) :
    (cells.map (fun c => (c, g c))).find? (fun e => decide (e.1 = r)) =
      some (r, g r) := by
  induction cells with
  | nil => cases h
  | cons c cs ih =>
    by_cases hc : c = r
    · subst hc; simp [List.find?_cons]
    · rcases List.mem_cons.mp h with rfl | hm
      · exact absurd rfl hc
      · simpa [List.find?_cons, hc] using ih hm

theorem cumFracs_key_mem {α : Type} {v : α} {c : ℕ} {vc : List (α × ℕ)}
    (n : ℕ) (h : (v, c) ∈ vc) :
    ∀ acc : ℕ, ∃ q, (v, q) ∈ cumFracs n vc acc := by
  induction vc with
  | nil => cases h
  | cons e rest ih =>
    intro acc
    obtain ⟨ev, ec⟩ := e
    rcases List.mem_cons.mp h with heq | hmem
    · injection heq with h1 h2
      subst h1; subst h2
      exact ⟨((acc + c : ℕ) : ℚ) / (n : ℚ), List.mem_cons_self _ _⟩
    · obtain ⟨q, hq⟩ := ih hmem (acc + ec)
      exact ⟨q, List.mem_cons_of_mem _ hq⟩

theorem cumSumTable_lookup_isSome {α : Type} [DecidableEq α] {data : List α}
    {v : α} (h : v ∈ data) : (tableLookup (cumSumTable data) v).isSome := by
  have h1 : (v, data.count v) ∈
      (data.dedup.map (fun u => (u, data.count u))).insertionSort
        (fun a b => a.2 ≤ b.2) :=
    (List.perm_insertionSort _ _).mem_iff.mpr
      (List.mem_map.mpr ⟨v, List.mem_dedup.mpr h, rfl⟩)
  obtain ⟨q, hq⟩ := cumFracs_key_mem data.length h1 0
  unfold tableLookup
  rw [Option.isSome_map']
  rw [List.find?_isSome]
  exact ⟨(v, q), hq, by simp⟩

theorem mem_allCells {α β : Type} [DecidableEq α] [DecidableEq β]
    {data : List (α × β)} {r : α × β} (h : r ∈ data) : r ∈ allCells data := by
  have h1 : (r.1, r.2) ∈ (colCats data).product (rowCats data) :=
    List.mem_product.mpr
      ⟨List.mem_dedup.mpr (List.mem_map_of_mem _ h),
       List.mem_dedup.mpr (List.mem_map_of_mem _ h)⟩
  simpa [allCells] using h1

theorem cxcTable_lookup_eq {α β : Type} [DecidableEq α] [DecidableEq β]
    {data : List (α × β)} {r : α × β} (h : r ∈ data) (tc : ℕ) (te : ℚ) :
    tableLookup (cxcTable data tc te) r =
      some (cellCount data r.1 r.2, cellExpect data r.1 r.2,
        cxc_flag data tc te r.1 r.2) := by
  unfold tableLookup cxcTable
  rw [find_map_key
    (fun c => (cellCount data c.1 c.2, cellExpect data c.1 c.2,
      cxc_flag data tc te c.1 c.2)) _ r (mem_allCells h)]
  rfl

theorem sum_map_add_nat {γ : Type} (l : List γ) (f g : γ → ℕ) :
    (l.map (fun x => f x + g x)).sum = (l.map f).sum + (l.map g).sum := by
  induction l with
  | nil => rfl
  | cons x xs ih => simp only [List.map_cons, List.sum_cons, ih]; omega

theorem sum_map_ite_eq_zero {γ : Type} [DecidableEq γ] {cells : List γ} {r : γ}
    (h : r ∉ cells) :
    (cells.map (fun c => if c = r then (1 : ℕ) else 0)).sum = 0 := by
  apply List.sum_eq_zero
  intro x hx
  obtain ⟨c, hc, hcx⟩ := List.mem_map.mp hx
  rcases eq_or_ne c r with rfl | hne
  · exact absurd hc h
  · simpa [hne] using hcx.symm

theorem sum_map_ite_eq_one {γ : Type} [DecidableEq γ] {cells : List γ} {r : γ}
    (hnd : cells.Nodup) (h : r ∈ cells) :
    (cells.map (fun c => if c = r then (1 : ℕ) else 0)).sum = 1 := by
  induction cells with
  | nil => cases h
  | cons x xs ih =>
    rw [List.map_cons, List.sum_cons]
    rcases List.mem_cons.mp h with rfl | hm
    · rw [if_pos rfl, sum_map_ite_eq_zero (List.nodup_cons.mp hnd).1]
    · have hx : x ≠ r := fun he => (List.nodup_cons.mp hnd).1 (he ▸ hm)
      rw [if_neg hx, ih (List.nodup_cons.mp hnd).2 hm]

theorem allCells_nodup {α β : Type} [DecidableEq α] [DecidableEq β]
    (data : List (α × β)) : (allCells data).Nodup :=
  (List.nodup_dedup _).product (List.nodup_dedup _)

theorem sum_pcount_eq_length {α β : Type} [DecidableEq α] [DecidableEq β]
    (d : List (α × β)) (cells : List (α × β)) (hnd : cells.Nodup)
    (hsub : ∀ r ∈ d, r ∈ cells) :
    (cells.map (fun c => pcount d c.1 c.2)).sum = d.length := by
  induction d with
  | nil => simp [pcount]
  | cons r d ih =>
    have hcongr : cells.map (fun c => pcount (r :: d) c.1 c.2) =
        cells.map (fun c => pcount d c.1 c.2 + if c = r then 1 else 0) := by
      apply List.map_congr_left
      intro c _
      unfold pcount
      rw [List.countP_cons]
      congr 1
      rcases eq_or_ne c r with rfl | hne
      · simp
      · have hno : ¬(r.1 = c.1 ∧ r.2 = c.2) := by
          intro ⟨h1, h2⟩
          exact hne (Prod.ext h1.symm h2.symm)
        simp only [Bool.and_eq_true, decide_eq_true_eq]
        rw [if_neg hno, if_neg hne]
    rw [hcongr, sum_map_add_nat,
      sum_map_ite_eq_one hnd (hsub r (List.mem_cons_self r d)),
      ih (fun x hx => hsub x (List.mem_cons_of_mem r hx))]
    simp

theorem totalN_eq_length {α β : Type} [DecidableEq α] [DecidableEq β]
    (data : List (α × β)) : totalN data = data.length :=
  sum_pcount_eq_length data (allCells data) (allCells_nodup data)
    (fun _ hr => mem_allCells hr)

theorem cum_sum_step_rows {α : Type} [DecidableEq α] {t : ℚ} {data : List α}
    {s : CState α} (h : cum_sum_step t (cumInit data) = .ok s) :
    s.rows = data := by
  unfold cum_sum_step cumInit at h
  simp only [Option.isSome_none, Bool.false_eq_true, if_false, Except.ok.injEq] at h
  rw [← h]
  exact filterMap_lookup_fst data _ (fun v hv => cumSumTable_lookup_isSome hv)

theorem marginal_step_result {α β : Type} [DecidableEq α] [DecidableEq β]
    (tc : ℕ) (te : ℚ) (data : List (α × β)) :
    marginal_probabilities_step tc te (pairInit data) = .ok
      { rows := data
        cnt := some (data.map (fun r => cellCount data r.1 r.2))
        prob := some (data.map (fun r => cellExpect data r.1 r.2))
        flags := some (data.map (fun r => cxc_flag data tc te r.1 r.2)) } := by
  unfold marginal_probabilities_step pairInit
  simp only [Option.isSome_none, Bool.false_eq_true, if_false]
  rw [filterMap_lookup_eq_map data _
    (fun r => (cellCount data r.1 r.2, cellExpect data r.1 r.2,
      cxc_flag data tc te r.1 r.2))
    (fun v hv => cxcTable_lookup_eq hv tc te)]
  simp [List.map_map, Function.comp_def]

instance {ε α : Type} [DecidableEq ε] [DecidableEq α] : DecidableEq (Except ε α) :=
  fun a b =>
    match a, b with
    | .ok x, .ok y =>
      if h : x = y then .isTrue (congrArg Except.ok h)
      else .isFalse (fun he => h (Except.ok.inj he))
    | .error x, .error y =>
      if h : x = y then .isTrue (congrArg Except.error h)
      else .isFalse (fun he => h (Except.error.inj he))
    | .ok _, .error _ => .isFalse (fun he => Except.noConfusion he)
    | .error _, .ok _ => .isFalse (fun he => Except.noConfusion he)

/-! ## Claim theorems

`Rat.add`, `Rat.mul`, `Rat.inv` and `Rat.sub` are `@[irreducible]` in
Batteries, which blocks `decide` on concrete rational computations;
they are made semireducible locally so the concrete scenarios can be
evaluated.  The kernel is unaffected by reducibility annotations. -/

section ClaimTheorems

attribute [local semireducible] Rat.add Rat.mul Rat.inv Rat.sub

/-- C2: for every detector dataset (single-column, paired and
full-table datasets are all constructed without the flag column),
querying `outliers` or `without_outliers` before the computation method
has run raises the state error `ValueError` immediately and leaves the
dataset unmodified: same records, same columns, no flag column. -/
theorem state_error_before_computation :
    (∀ (α : Type) (data : List α),
      (Detection_init data).flags = none ∧
      outliers (Detection_init data) =
        (.error "Die Detection wurde noch nicht gestartet!", Detection_init data) ∧
      without_outliers (Detection_init data) =
        (.error "Die Detection wurde noch nicht gestartet!", Detection_init data)) ∧
    (∀ rows : List (List ℚ),
      (DetectionFullDataFrame_init rows).flags = none ∧
      outliersT (DetectionFullDataFrame_init rows) =
        (.error "Die Detection wurde noch nicht gestartet!",
          DetectionFullDataFrame_init rows) ∧
      without_outliersT (DetectionFullDataFrame_init rows) =
        (.error "Die Detection wurde noch nicht gestartet!",
          DetectionFullDataFrame_init rows)) :=
  ⟨fun _ _ => ⟨rfl, rfl, rfl⟩, fun _ => ⟨rfl, rfl, rfl⟩⟩

/-- C5: the IQR detector flags `x` iff `x ≤ Q1 − t·(Q3−Q1)` or
`x ≥ Q3 + t·(Q3−Q1)` (both bounds inclusive) with Q1/Q3 the linearly
interpolated 25%/75% percentiles; the default threshold is 2.2, and on
`[1,2,3,4,100]` the bounds are −2.4 and 8.4 and the only outlier is
100. -/
theorem iqr_formula_and_scenario :
    (∀ (l : List ℚ) (t x : ℚ),
      iqr_flag l t x =
        (decide (x ≤ quantile l (1 / 4) -
            t * (quantile l (3 / 4) - quantile l (1 / 4))) ||
         decide (x ≥ quantile l (3 / 4) +
            t * (quantile l (3 / 4) - quantile l (1 / 4))))) ∧
    iqr_default_threshold = 11 / 5 ∧
    quantile [1, 2, 3, 4, 100] (1 / 4) = 2 ∧
    quantile [1, 2, 3, 4, 100] (3 / 4) = 4 ∧
    iqr_lower_limit [1, 2, 3, 4, 100] (11 / 5) = -(12 / 5) ∧
    iqr_upper_limit [1, 2, 3, 4, 100] (11 / 5) = 42 / 5 ∧
    ([1, 2, 3, 4, 100] : List ℚ).map
        (fun x => (x, iqr_flag [1, 2, 3, 4, 100] (11 / 5) x)) =
      [(1, false), (2, false), (3, false), (4, false), (100, true)] := by
  refine ⟨fun l t x => ?_, rfl, by decide, by decide, by decide, by decide, by decide⟩
  unfold iqr_flag iqr_upper_limit iqr_lower_limit
  exact Bool.or_comm _ _

/-- C4 counterexample: on `idrCexData` with threshold 1, the claim's
formula (shift bases Q1/Q3, the 25%/75% percentiles) flags the record
18, but the source flags nothing: the source shifts from the deciles
D1/D9 themselves. -/
theorem idr_shift_base_cex :
    idr_flag idrCexData 1 18 = false ∧ idr_spec_flag idrCexData 1 18 = true := by
  exact ⟨by decide, by decide⟩

/-- C4 (amended): the IDR detector computes D1/D9 as the 10th/90th
percentiles, takes span = D9−D1, and flags `x` iff
`x ≤ D1 − t·span` or `x ≥ D9 + t·span` — the shift bases are the
deciles D1/D9 themselves, not Q1/Q3; the default threshold is 1.0. -/
theorem idr_uses_deciles_as_shift_bases :
    (∀ (l : List ℚ) (t x : ℚ),
      idr_flag l t x =
        (decide (x ≤ quantile l (1 / 10) -
            t * (quantile l (9 / 10) - quantile l (1 / 10))) ||
         decide (x ≥ quantile l (9 / 10) +
            t * (quantile l (9 / 10) - quantile l (1 / 10))))) ∧
    idr_default_threshold = 1 := by
  refine ⟨fun l t x => ?_, rfl⟩
  unfold idr_flag idr_upper_limit idr_lower_limit
  exact Bool.or_comm _ _

/-- C8: the histogram algorithm (as the class docstring documents it
and as `histogram()` would execute with pandas imported) on
`[1,1,1,1,1,100]` with 2 bins puts the five 1's in the first bin
(count 5, not rare) and 100 in the second (count 1 < 2, rare), so
exactly 100 is flagged.  The shipped module, however, raises
`NameError` on every invocation because `import pandas as pd` appears
only under `if __name__ == "__main__"`. -/
theorem histogram_scenario_intent :
    histogram_flags [1, 1, 1, 1, 1, 100] 2 =
      [(1, false), (1, false), (1, false), (1, false), (1, false), (100, true)] ∧
    binIndex [1, 1, 1, 1, 1, 100] 2 1 = 0 ∧
    binIndex [1, 1, 1, 1, 1, 100] 2 100 = 1 ∧
    rareBins [1, 1, 1, 1, 1, 100] 2 = [1] := by
  exact ⟨by decide, by decide, by decide, by decide⟩

/-- C10: the KNN computation queries `k+1` nearest neighbours and
succeeds iff the record count is at least `k+1`; with `n ≤ k` (in
particular fewer than 26 records under the default `k = 25`) it raises
and no flag column is created. -/
theorem knn_requires_k_plus_one (l : List ℚ) (k : ℕ) (t : ℚ) :
    ((knn_run k t ⟨l, none, none⟩).isSome ↔ k + 1 ≤ l.length) ∧
    (l.length ≤ k → knn_run k t ⟨l, none, none⟩ = none) ∧
    (l.length < 26 → knn_run knn_default_k t ⟨l, none, none⟩ = none) := by
  refine ⟨?_, ?_, ?_⟩
  · unfold knn_run
    by_cases h : l.length < k + 1
    all_goals simp [h]
    all_goals omega
  · intro h
    unfold knn_run
    simp only [if_pos (show (⟨l, none, none⟩ : KState).values.length < k + 1 by
      simpa using Nat.lt_succ_of_le h)]
  · intro h
    unfold knn_run knn_default_k
    simp only [if_pos (show (⟨l, none, none⟩ : KState).values.length < 25 + 1 by
      simpa using Nat.lt_of_lt_of_le h (by omega))]

/-- Witness for C10: three records are too few for the default 25
neighbours. -/
theorem knn_requires_k_plus_one_witness :
    knn_run 25 (1 / 5) ⟨[1, 2, 3], none, none⟩ = none :=
  (knn_requires_k_plus_one [1, 2, 3] 25 (1 / 5)).2.1 (by norm_num)

/-- C9: for the Z-score, IQR, IDR, MAD and KNN detectors, for every
fixed input list, every record and every pair of thresholds
`t1 ≤ t2`, a record flagged at `t2` is also flagged at `t1` — the flag
set is monotone non-increasing in the threshold. -/
theorem threshold_monotone (l : List ℚ) (t1 t2 : ℚ) (h : t1 ≤ t2) (x : ℚ) (k : ℕ) :
    (z_score_flag l t2 x = true → z_score_flag l t1 x = true) ∧
    (iqr_flag l t2 x = true → iqr_flag l t1 x = true) ∧
    (idr_flag l t2 x = true → idr_flag l t1 x = true) ∧
    (mad_flag l t2 x = true → mad_flag l t1 x = true) ∧
    (knn_flag l k t2 x = true → knn_flag l k t1 x = true) := by
  have hspan_iqr : quantile l (1 / 4) ≤ quantile l (3 / 4) :=
    quantile_mono l (by norm_num) (by norm_num) (by norm_num)
  have hspan_idr : quantile l (1 / 10) ≤ quantile l (9 / 10) :=
    quantile_mono l (by norm_num) (by norm_num) (by norm_num)
  refine ⟨?_, ?_, ?_, ?_, ?_⟩
  · unfold z_score_flag
    cases hf : fdiv ((x - mean l) ^ 2) (svar l) with
    | fin q =>
      show (if t2 ≤ 0 then true else decide (q ≥ t2 ^ 2)) = true →
        (if t1 ≤ 0 then true else decide (q ≥ t1 ^ 2)) = true
      by_cases h2 : t2 ≤ 0
      · intro _
        rw [if_pos (le_trans h h2)]
      · by_cases h1 : t1 ≤ 0
        · intro _
          rw [if_pos h1]
        · rw [if_neg h1, if_neg h2]
          intro hq
          have hq' : q ≥ t2 ^ 2 := of_decide_eq_true hq
          apply decide_eq_true
          have ht1 : 0 < t1 := lt_of_not_le h1
          nlinarith
    | pinf => exact id
    | ninf => exact id
    | nan => exact id
  · simp only [iqr_flag, iqr_upper_limit, iqr_lower_limit, Bool.or_eq_true,
      decide_eq_true_eq]
    have hb := mul_le_mul_of_nonneg_right h (sub_nonneg.mpr hspan_iqr)
    rintro (hx | hx)
    · left; linarith
    · right; linarith
  · simp only [idr_flag, idr_upper_limit, idr_lower_limit, Bool.or_eq_true,
      decide_eq_true_eq]
    have hb := mul_le_mul_of_nonneg_right h (sub_nonneg.mpr hspan_idr)
    rintro (hx | hx)
    · left; linarith
    · right; linarith
  · unfold mad_flag FVal.geB
    cases hf : fdiv (|x - median l|)
        (median (l.map (fun y => |y - median l|))) with
    | fin q =>
      show decide (q ≥ t2) = true → decide (q ≥ t1) = true
      simp only [decide_eq_true_eq]
      intro hq
      linarith
    | pinf => exact id
    | ninf => exact id
    | nan => exact id
  · simp only [knn_flag, decide_eq_true_eq]
    intro hx
    linarith

/-- Witness for C9 at the dataset `[1,2,3,4,100]`, thresholds 1 ≤ 2,
record 100 and `k = 2`. -/
theorem threshold_monotone_witness :
    (z_score_flag [1, 2, 3, 4, 100] 2 100 = true →
      z_score_flag [1, 2, 3, 4, 100] 1 100 = true) ∧
    (iqr_flag [1, 2, 3, 4, 100] 2 100 = true →
      iqr_flag [1, 2, 3, 4, 100] 1 100 = true) ∧
    (idr_flag [1, 2, 3, 4, 100] 2 100 = true →
      idr_flag [1, 2, 3, 4, 100] 1 100 = true) ∧
    (mad_flag [1, 2, 3, 4, 100] 2 100 = true →
      mad_flag [1, 2, 3, 4, 100] 1 100 = true) ∧
    (knn_flag [1, 2, 3, 4, 100] 2 2 100 = true →
      knn_flag [1, 2, 3, 4, 100] 2 1 100 = true) :=
  threshold_monotone [1, 2, 3, 4, 100] 1 2 (by norm_num) 100 2

/-- C7: the multivariate aggregator computes per column the MAD score
of every record, replaces NaN with 0.0, +inf with 1.0 and −inf with
0.0, min-max normalizes each column independently (the output always
lies in [0,1]), sums the normalized scores per record and flags a
record iff the row sum is strictly greater than the threshold, whose
default is 8.0. -/
theorem mad_sum_correct :
    (∀ (cols : List (List ℚ)) (t : ℚ),
      mad_sum_flags cols t = mad_sum_spec_flags cols t) ∧
    (∀ (col : List ℚ) (x : ℚ), x ∈ minmaxCol col → 0 ≤ x ∧ x ≤ 1) ∧
    sanitize .nan = 0 ∧ sanitize .pinf = 1 ∧ sanitize .ninf = 0 ∧
    mad_sum_default_threshold = 8 := by
  refine ⟨fun cols t => ?_, fun col x hx => ?_, rfl, rfl, rfl, rfl⟩
  · unfold mad_sum_flags mad_sum_spec_flags rowSumAt
    simp [List.map_map, Function.comp_def]
  · unfold minmaxCol at hx
    simp only [List.mem_map] at hx
    obtain ⟨y, hy, rfl⟩ := hx
    have hmn : listMin col ≤ y := listMin_le hy
    have hmx : y ≤ listMax col := le_listMax hy
    by_cases hc : listMax col - listMin col = 0
    · rw [if_pos hc]
      constructor <;> (rw [div_one]; linarith)
    · rw [if_neg hc]
      have hlt : 0 < listMax col - listMin col :=
        lt_of_le_of_ne (by linarith) (Ne.symm hc)
      constructor
      · exact div_nonneg (by linarith) (le_of_lt hlt)
      · rw [div_le_one hlt]
        linarith

/-- Witness for C7: the min-max-normalized value 1 of the column
`[0,2]` lies in `[0,1]`. -/
theorem mad_sum_correct_witness :
    (1 : ℚ) ∈ minmaxCol [0, 2] ∧ (0 ≤ (1 : ℚ) ∧ (1 : ℚ) ≤ 1) :=
  ⟨by decide, mad_sum_correct.2.1 [0, 2] 1 (by decide)⟩

/-- C1: after any detector's computation the two accessors partition
the dataset: `outliers`/`without_outliers` return the flagged and
unflagged rows, the two row sets are disjoint, every row lies in
exactly one of them, their union is a permutation of the dataset and
each side preserves the original insertion order (it is a sublist of
the dataset); and the detectors that rebuild `self.data` via merges —
the categorical cumulative-mass `cum_sum` and the categorical-pair
`marginal_probabilities` — preserve the record sequence exactly. -/
theorem partition_after_computation :
    (∀ (α : Type) (vals : List α) (fs : List Bool),
      (outliers ⟨vals, some fs⟩).1 =
        .ok ((outlierRows (vals.zip fs)).map (fun r => r.1)) ∧
      (without_outliers ⟨vals, some fs⟩).1 =
        .ok ((nonOutlierRows (vals.zip fs)).map (fun r => r.1))) ∧
    (∀ (ρ : Type) (l : List (ρ × Bool)),
      (outlierRows l ++ nonOutlierRows l).Perm l ∧
      (outlierRows l).Sublist l ∧
      (nonOutlierRows l).Sublist l ∧
      (∀ r ∈ l, (r ∈ outlierRows l ∧ r ∉ nonOutlierRows l) ∨
        (r ∉ outlierRows l ∧ r ∈ nonOutlierRows l))) ∧
    (∀ (α : Type) (_ : DecidableEq α) (t : ℚ) (data : List α) (s : CState α),
      cum_sum_step t (cumInit data) = .ok s → s.rows = data) ∧
    (∀ (α β : Type) (_ : DecidableEq α) (_ : DecidableEq β) (tc : ℕ) (te : ℚ)
      (data : List (α × β)) (s : PState α β),
      marginal_probabilities_step tc te (pairInit data) = .ok s →
        s.rows = data) := by
  refine ⟨fun α vals fs => ⟨rfl, rfl⟩, fun ρ l => ⟨?_, ?_, ?_, ?_⟩, ?_, ?_⟩
  · exact List.filter_append_perm _ l
  · exact List.filter_sublist l
  · exact List.filter_sublist l
  · intro r hr
    cases hflag : r.2
    · right
      unfold outlierRows nonOutlierRows
      constructor
      · intro hmem
        rw [List.mem_filter, hflag] at hmem
        exact Bool.false_ne_true hmem.2
      · rw [List.mem_filter, hflag]
        exact ⟨hr, rfl⟩
    · left
      unfold outlierRows nonOutlierRows
      constructor
      · rw [List.mem_filter]
        exact ⟨hr, hflag⟩
      · intro hmem
        rw [List.mem_filter, hflag] at hmem
        exact Bool.false_ne_true hmem.2
  · intro α inst t data s h
    exact cum_sum_step_rows h
  · intro α β instA instB tc te data s h
    rw [marginal_step_result tc te data] at h
    rw [← Except.ok.inj h]

/-- Witness for C1: each concrete row of `[(5,true),(7,false)]` lies in
exactly one partition, and a concrete `cum_sum` run preserves the
records. -/
theorem partition_after_computation_witness :
    ((((5 : ℕ), true) ∈ outlierRows [((5 : ℕ), true), (7, false)] ∧
      ((5 : ℕ), true) ∉ nonOutlierRows [((5 : ℕ), true), (7, false)]) ∨
     (((5 : ℕ), true) ∉ outlierRows [((5 : ℕ), true), (7, false)] ∧
      ((5 : ℕ), true) ∈ nonOutlierRows [((5 : ℕ), true), (7, false)])) ∧
    (⟨[1, 2], some [1 / 2, 1], some [false, false]⟩ : CState ℕ).rows = [1, 2] :=
  ⟨(partition_after_computation.2.1 ℕ [((5 : ℕ), true), (7, false)]).2.2.2
      ((5 : ℕ), true) (by decide),
   partition_after_computation.2.2.1 ℕ inferInstance (1 / 20) [1, 2]
      ⟨[1, 2], some [1 / 2, 1], some [false, false]⟩ (by decide)⟩

/-- C3 counterexample: on the dataset `[0,0,1]` the first `cum_sum`
invocation succeeds, but the second invocation on the resulting state
raises `KeyError` (the merge suffixes the pre-existing `cum_sum`
column) instead of recomputing identical columns. -/
theorem recompute_not_idempotent_cex :
    cum_sum_step (1 / 20) (cumInit [(0 : ℕ), 0, 1]) =
      .ok ⟨[0, 0, 1], some [1, 1, 1 / 3], some [false, false, false]⟩ ∧
    cum_sum_step (1 / 20)
        (⟨[0, 0, 1], some [1, 1, 1 / 3], some [false, false, false]⟩ : CState ℕ) =
      .error "KeyError: cum_sum" := by
  exact ⟨by decide, rfl⟩

/-- C3 (amended): re-invoking the computation method with unchanged
configuration recomputes identical derived columns and flags for the
in-place one-dimensional numeric detectors (Z-score, IQR, IDR, MAD,
KNN) and never appends duplicate columns there; the categorical
cumulative-mass and categorical-pair detectors, however, are not
idempotent: their computation replaces `self.data` by a merge, and a
second invocation raises a `KeyError` because the merge suffixes the
already-present derived column instead of overwriting it.  (The
histogram detector is excluded: its computation raises `NameError` on
every invocation, see C8.) -/
theorem recompute_idempotent_amended :
    (∀ (t : ℚ) (s : ZState), z_score_run t (z_score_run t s) = z_score_run t s) ∧
    (∀ (t : ℚ) (s : QState), iqr_run t (iqr_run t s) = iqr_run t s) ∧
    (∀ (t : ℚ) (s : QState), idr_run t (idr_run t s) = idr_run t s) ∧
    (∀ (t : ℚ) (s : MState), mad_run t (mad_run t s) = mad_run t s) ∧
    (∀ (k : ℕ) (t : ℚ) (s s' : KState),
      knn_run k t s = some s' → knn_run k t s' = some s') ∧
    (∀ (α : Type) (_ : DecidableEq α) (t : ℚ) (data : List α) (s : CState α),
      cum_sum_step t (cumInit data) = .ok s →
        cum_sum_step t s = .error "KeyError: cum_sum") ∧
    (∀ (α β : Type) (_ : DecidableEq α) (_ : DecidableEq β) (tc : ℕ) (te : ℚ)
      (data : List (α × β)) (s : PState α β),
      marginal_probabilities_step tc te (pairInit data) = .ok s →
        marginal_probabilities_step tc te s = .error "KeyError: count") := by
  refine ⟨fun t s => rfl, fun t s => rfl, fun t s => rfl, fun t s => rfl,
    ?_, ?_, ?_⟩
  · intro k t s s' h
    unfold knn_run at h ⊢
    by_cases hl : s.values.length < k + 1
    · rw [if_pos hl] at h
      exact absurd h (by simp)
    · rw [if_neg hl] at h
      rw [← Option.some.inj h]
      rw [if_neg hl]
  · intro α inst t data s h
    unfold cum_sum_step cumInit at h
    simp only [Option.isSome_none, Bool.false_eq_true, if_false,
      Except.ok.injEq] at h
    unfold cum_sum_step
    rw [← h]
    rfl
  · intro α β instA instB tc te data s h
    rw [marginal_step_result tc te data] at h
    unfold marginal_probabilities_step
    rw [← Except.ok.inj h]
    rfl

/-- Witness for C3's amended theorem: a concrete KNN re-run is stable
and a concrete second `cum_sum` invocation raises. -/
theorem recompute_idempotent_witness :
    knn_run 1 (1 / 5)
        (⟨[1, 2, 3], some [1, 1, 1], some [true, true, true]⟩ : KState) =
      some ⟨[1, 2, 3], some [1, 1, 1], some [true, true, true]⟩ ∧
    cum_sum_step (1 / 10) (⟨[(7 : ℕ)], some [1], some [false]⟩ : CState ℕ) =
      .error "KeyError: cum_sum" :=
  ⟨recompute_idempotent_amended.2.2.2.2.1 1 (1 / 5) ⟨[1, 2, 3], none, none⟩ _
      (by decide),
   recompute_idempotent_amended.2.2.2.2.2.1 ℕ inferInstance (1 / 10) [7]
      ⟨[(7 : ℕ)], some [1], some [false]⟩ (by decide)⟩

set_option maxRecDepth 400000 in
/-- C6: the pair detector treats a combination as an outlier
combination iff both `count < threshold_count` and
`count/expected < threshold_expectation` (conjunction), with
`expected = rowSum·colSum/N` and `N` the total record count
(`df.values.sum()` of the fully filled count matrix); combinations
absent from the data appear in the count matrix with count 0; the
expansion join never duplicates records — the rebuilt dataset is
exactly the original record sequence, each record annotated with its
combination's flag; and on the §8 scenario exactly the single (Y,P)
record is flagged. -/
theorem cxc_conjunction_correct :
    (∀ (α β : Type) (_ : DecidableEq α) (_ : DecidableEq β)
        (data : List (α × β)) (tc : ℕ) (te : ℚ) (a : α) (b : β),
      cxc_flag data tc te a b = cxc_spec_flag data tc te a b) ∧
    (∀ (α β : Type) (_ : DecidableEq α) (_ : DecidableEq β)
        (data : List (α × β)) (a : α) (b : β),
      (a, b) ∉ data → cellCount data a b = 0) ∧
    (∀ (α β : Type) (_ : DecidableEq α) (_ : DecidableEq β)
        (data : List (α × β)), totalN data = data.length) ∧
    (∀ (α β : Type) (_ : DecidableEq α) (_ : DecidableEq β)
        (tc : ℕ) (te : ℚ) (data : List (α × β)),
      marginal_probabilities_step tc te (pairInit data) = .ok
        { rows := data
          cnt := some (data.map (fun r => cellCount data r.1 r.2))
          prob := some (data.map (fun r => cellExpect data r.1 r.2))
          flags := some (data.map (fun r => cxc_flag data tc te r.1 r.2)) }) ∧
    (cxcScenarioData.map
        (fun r => cxc_flag cxcScenarioData 2 (1 / 2) r.1 r.2) =
      List.replicate 10 false ++ List.replicate 5 false ++ [true] ++
        List.replicate 100 false) := by
  refine ⟨?_, ?_, fun α β _ _ data => totalN_eq_length data,
    fun α β _ _ tc te data => marginal_step_result tc te data, ?_⟩
  · intro α β instA instB data tc te a b
    unfold cxc_flag cxc_spec_flag cellExpect cellProb cellCount cxc_spec_expected
    rw [totalN_eq_length data]
    by_cases hN : ((data.length : ℚ)) = 0
    · have hlen : data.length = 0 := by exact_mod_cast hN
      have hdata : data = [] := List.eq_nil_of_length_eq_zero hlen
      subst hdata
      simp [pcount, rowSum, colSum]
    · have hN0 : ((data.length : ℚ)) ≠ 0 := hN
      have hden : ((rowSum data b : ℚ) / (data.length : ℚ)) *
          ((colSum data a : ℚ) / (data.length : ℚ)) * (data.length : ℚ) =
          ((rowSum data b : ℚ) * (colSum data a : ℚ)) / (data.length : ℚ) := by
        field_simp
        ring
      rw [hden]
  · intro α β instA instB data a b hab
    unfold cellCount pcount
    rw [List.countP_eq_zero]
    intro r hr
    simp only [Bool.and_eq_true, decide_eq_true_eq, not_and]
    intro h1 h2
    apply hab
    have hr' : (a, b) = r := by rw [← h1, ← h2]
    rw [hr']
    exact hr
  · have h00 : cxc_flag cxcScenarioData 2 (1 / 2) 0 0 = false := by decide
    have h01 : cxc_flag cxcScenarioData 2 (1 / 2) 0 1 = false := by decide
    have h10 : cxc_flag cxcScenarioData 2 (1 / 2) 1 0 = true := by decide
    have h11 : cxc_flag cxcScenarioData 2 (1 / 2) 1 1 = false := by decide
    have hstruct : cxcScenarioData =
        List.replicate 10 ((0 : ℕ), (0 : ℕ)) ++ List.replicate 5 (0, 1) ++
          [(1, 0)] ++ List.replicate 100 (1, 1) := rfl
    rw [hstruct] at h00 h01 h10 h11
    rw [hstruct]
    simp only [List.map_append, List.map_replicate, List.map_cons, List.map_nil,
      h00, h01, h10, h11]

/-- Witness for C6: the combination (1,1) is absent from the dataset
`[(0,0)]`, and its count-matrix cell is 0. -/
theorem cxc_conjunction_correct_witness :
    cellCount [((0 : ℕ), (0 : ℕ))] 1 1 = 0 :=
  cxc_conjunction_correct.2.1 ℕ ℕ inferInstance inferInstance
    [((0 : ℕ), (0 : ℕ))] 1 1 (by decide)

end ClaimTheorems

end OutlierDetection
